import Mathlib

/-!
Verification of the natural-language specification of two React Native view
components of the metamask-mobile fragment:

* `src/app/components/Views/InAppBrowser/InAppBrowser.tsx` — a browser
  availability gate (`InAppBrowserView`);
* `src/app/components/Views/AccountPermissions/AccountPermissions.tsx` — a
  dapp account-permission bottom sheet (`AccountPermissions`).

The components are shallowly embedded: each React state hook becomes a field
of an explicit state structure, each event handler or effect becomes a step
function on that state, and the side effects a handler performs (calls into
the wallet engine, navigation, toasts, logging) are reified as values of
inductive action types so that theorems can speak about which effects fire.
Asynchronous fallible calls take their outcome (`Except`) as a parameter.
-/

namespace InAppBrowserView

/--
The fixed options bag passed to `InAppBrowser.open` (object literal `opts`
in `InAppBrowser.tsx`, lines 18-49).  Animations and headers are nested
records, exactly as in the source.
-/
structure BrowserAnimations where
  startEnter : String
  startExit : String
  endEnter : String
  endExit : String
deriving DecidableEq, Repr

structure BrowserOpts where
  dismissButtonStyle : String
  preferredBarTintColor : String
  preferredControlTintColor : String
  readerMode : Bool
  animated : Bool
  modalPresentationStyle : String
  modalTransitionStyle : String
  modalEnabled : Bool
  enableBarCollapsing : Bool
  showTitle : Bool
  toolbarColor : String
  secondaryToolbarColor : String
  navigationBarColor : String
  navigationBarDividerColor : String
  enableUrlBarHiding : Bool
  enableDefaultShare : Bool
  forceCloseOnRedirection : Bool
  animations : BrowserAnimations
  headers : List (String × String)
deriving DecidableEq, Repr

/-- The literal `opts` value from the source. -/
def opts : BrowserOpts :=
  { dismissButtonStyle := "cancel"
    preferredBarTintColor := "#453AA4"
    preferredControlTintColor := "white"
    readerMode := false
    animated := true
    modalPresentationStyle := "fullScreen"
    modalTransitionStyle := "coverVertical"
    modalEnabled := true
    enableBarCollapsing := false
    showTitle := true
    toolbarColor := "#6200EE"
    secondaryToolbarColor := "black"
    navigationBarColor := "black"
    navigationBarDividerColor := "white"
    enableUrlBarHiding := true
    enableDefaultShare := true
    forceCloseOnRedirection := false
    animations :=
      { startEnter := "slide_in_right"
        startExit := "slide_out_left"
        endEnter := "slide_in_left"
        endExit := "slide_out_right" }
    headers := [("my-custom-header", "my custom header value")] }

/--
The three `useState` hooks of `InAppBrowserView`:
`browserPlaceholderText`, `shouldOpenBrowser`, `url`.
-/
structure BrowserState where
  browserPlaceholderText : String
  shouldOpenBrowser : Bool
  url : String
deriving DecidableEq, Repr

/-- The `useState` initial values (lines 7-9 of the source). -/
def initialBrowserState : BrowserState :=
  { browserPlaceholderText := "Checking browser availability"
    shouldOpenBrowser := false
    url := "https://home.metamask.io/" }

/--
Events that can update the browser state: the `InAppBrowser.isAvailable()`
promise settling (fulfilled or rejected — the two continuations passed to
`.then` at lines 11-16), and the `TextInput` `onChangeText` callback
(`handleUrlChange = setUrl`).
-/
inductive BrowserEvent where
  | availableResolved
  | availableRejected
  | urlChange (newUrl : String)
deriving DecidableEq, Repr

/--
One state update.  On fulfillment the source runs
`setBrowserPlaceholderText('Browser available'); setShouldOpenBrowser(true)`;
on rejection `setBrowserPlaceholderText('Browser not Available')`;
`onChangeText` runs `setUrl`.
-/
def browserStep (s : BrowserState) : BrowserEvent → BrowserState
  | BrowserEvent.availableResolved =>
      { s with browserPlaceholderText := "Browser available",
               shouldOpenBrowser := true }
  | BrowserEvent.availableRejected =>
      { s with browserPlaceholderText := "Browser not Available" }
  | BrowserEvent.urlChange newUrl => { s with url := newUrl }

/-- The state after a sequence of events, starting from the initial hooks. -/
def browserRun (events : List BrowserEvent) : BrowserState :=
  events.foldl browserStep initialBrowserState

/-- The call `InAppBrowser.open(url, opts)` made by the press handler. -/
structure OpenCall where
  url : String
  options : BrowserOpts
deriving DecidableEq, Repr

/-- `handleOpenBrowserButtonPress = () => InAppBrowser.open(url, opts)`. -/
def handleOpenBrowserButtonPress (s : BrowserState) : OpenCall :=
  { url := s.url, options := opts }

/-- The `Pressable` has `disabled={!shouldOpenBrowser}` (line 62). -/
def openBrowserButtonDisabled (s : BrowserState) : Bool :=
  !s.shouldOpenBrowser

end InAppBrowserView

namespace AccountPermissions

/--
The `USER_INTENT` enum from `app/constants/permissions`.  Its declaration is
outside the provided fragment; its seven values are those handled by
`AccountPermissions.tsx` (`USER_INTENT.None` in the effect guard at line 292
and the six `case` labels of `handleUserActions`) and listed by the spec:
None, Confirm, Create, CreateMultiple, Cancel, Import, ConnectHW.
-/
inductive USER_INTENT where
  | None
  | Confirm
  | Create
  | CreateMultiple
  | Cancel
  | Import
  | ConnectHW
deriving DecidableEq, Repr

/--
The `AccountPermissionsScreens` enum from `AccountPermissions.types`.  Its
declaration is outside the provided fragment; its six values are the `case`
labels of `renderPermissionsScreens` (lines 509-523), matching the spec list
{Connected, ConnectMoreAccounts, EditAccountsPermissions,
ConnectMoreNetworks, Revoke, PermissionsSummary}.
-/
inductive AccountPermissionsScreens where
  | Connected
  | ConnectMoreAccounts
  | EditAccountsPermissions
  | ConnectMoreNetworks
  | Revoke
  | PermissionsSummary
deriving DecidableEq, Repr

/--
`initialScreen = AccountPermissionsScreens.Connected` — the destructuring
default applied to `props.route.params` (line 68): an absent caller value
defaults to `Connected`.
-/
def initialScreen (param : Option AccountPermissionsScreens) :
    AccountPermissionsScreens :=
  param.getD AccountPermissionsScreens.Connected

/--
The effects the intent-dispatch effect hook can perform, at the granularity
of the calls appearing in `handleUserActions` (lines 294-330): `handleConnect()`,
`hideSheet(...)`, `handleCreateAccount()`, `navigation.navigate(...)` and
`trackEvent(...)`.
-/
inductive IntentEffect where
  | connectEffect
  | dismissEffect
  | createAccountEffect
  | navigateEffect (screen : String)
  | trackEffect (event : String)
deriving DecidableEq, Repr

/--
The `switch` of `handleUserActions`.  The Confirm case calls
`handleConnect()` then `hideSheet(callback)` (the callback fires a
SWITCHED_ACCOUNT track event when the sheet closes); Create and
CreateMultiple share one case body; `USER_INTENT.None` matches no case and
falls through with no effect.
-/
def handleUserActions : USER_INTENT → List IntentEffect
  | USER_INTENT.Confirm =>
      [IntentEffect.connectEffect, IntentEffect.dismissEffect]
  | USER_INTENT.Create => [IntentEffect.createAccountEffect]
  | USER_INTENT.CreateMultiple => [IntentEffect.createAccountEffect]
  | USER_INTENT.Cancel => [IntentEffect.dismissEffect]
  | USER_INTENT.Import =>
      [IntentEffect.navigateEffect "ImportPrivateKeyView",
       IntentEffect.trackEffect "ACCOUNTS_IMPORTED_NEW_ACCOUNT"]
  | USER_INTENT.ConnectHW =>
      [IntentEffect.navigateEffect "ConnectQRHardwareFlow",
       IntentEffect.trackEffect "CONNECT_HARDWARE_WALLET"]
  | USER_INTENT.None => []

/--
One run of the intent effect hook (lines 291-344): on `None` it returns
early leaving the intent unchanged and performing nothing; otherwise it runs
`handleUserActions(userIntent)` and then `setUserIntent(USER_INTENT.None)`.
The result is the list of effects performed and the intent value after the
run.
-/
def userIntentCycle (intent : USER_INTENT) :
    List IntentEffect × USER_INTENT :=
  if intent = USER_INTENT.None then ([], intent)
  else (handleUserActions intent, USER_INTENT.None)

/--
State touched by the auto-dismiss effect (lines 127-168): the
`previousPermittedAccounts` ref (`undefined` until the effect body runs once,
then set to the observed length) and, as instrumentation, how many times the
effect body (hide sheet + disconnect toast) has fired.
-/
structure AutoDismissState where
  previousPermittedAccounts : Option Nat
  dismissToastFires : Nat
deriving DecidableEq, Repr

/-- Ref state at mount: `useRef<string[]>()` starts `undefined`, no fires. -/
def initialAutoDismissState : AutoDismissState :=
  { previousPermittedAccounts := Option.none, dismissToastFires := 0 }

/--
One run of the auto-dismiss effect, given the `permittedAccountsByHostname`
value observed on that render.  The body runs only when the ref is still
`undefined`, the permitted list is empty and the component is rendered as a
bottom sheet; it then hides the sheet, shows the disconnect toast and stores
the observed length in the ref.
-/
def autoDismissStep (isRenderedAsBottomSheet : Bool)
    (s : AutoDismissState) (permittedAccountsByHostname : List String) :
    AutoDismissState :=
  if s.previousPermittedAccounts = Option.none ∧
      permittedAccountsByHostname.length = 0 ∧
      isRenderedAsBottomSheet = true then
    { previousPermittedAccounts :=
        Option.some permittedAccountsByHostname.length,
      dismissToastFires := s.dismissToastFires + 1 }
  else s

/--
The auto-dismiss effect run over the sequence of permitted-account lists
observed across the renders of one mount.
-/
def autoDismissRun (isRenderedAsBottomSheet : Bool)
    (observations : List (List String)) : AutoDismissState :=
  observations.foldl (autoDismissStep isRenderedAsBottomSheet)
    initialAutoDismissState

/--
JavaScript `String.prototype.toLowerCase()` as used on the hex account
addresses of this component: character-wise lowercasing.  (Defined through
`String.mk`/`List.map` rather than `String.toLower` so that concrete
instances reduce inside the kernel; the two agree on every string.)
-/
def toLowerCase (s : String) : String :=
  String.mk (s.data.map Char.toLower)

/--
State touched by the selected-address refresh effect (lines 171-185): the
`previousIdentitiesListSize` ref (`undefined` at mount), the
`selectedAddresses` state, and the current `internalAccounts` selector value
(here already projected to its address list).
-/
structure IdentitiesState where
  previousIdentitiesListSize : Option Nat
  selectedAddresses : List String
  internalAccounts : List String
deriving DecidableEq, Repr

/--
One run of the refresh effect.  It lowercases the internal account
addresses; when the recorded size differs from the current length (a strict
`!==`, so `undefined` also differs) it keeps only the selected addresses
whose lowercased form occurs in that list and records the new length;
otherwise it does nothing.
-/
def refreshSelectedAddresses (s : IdentitiesState) : IdentitiesState :=
  let accountsAddressList := s.internalAccounts.map toLowerCase
  if s.previousIdentitiesListSize ≠ Option.some accountsAddressList.length then
    { s with
      selectedAddresses := s.selectedAddresses.filter
        (fun address => accountsAddressList.contains (toLowerCase address)),
      previousIdentitiesListSize := Option.some accountsAddressList.length }
  else s

/--
Re-render triggers for the refresh effect: its dependency array is
`[internalAccounts, selectedAddresses]`, so it re-runs after the account
list changes and after the user updates the selection (the multi-select
screens call `setSelectedAddresses`).
-/
inductive PermEvent where
  | accountsChanged (accounts : List String)
  | selectAddresses (addresses : List String)
deriving DecidableEq, Repr

/-- Apply one trigger, then run the refresh effect. -/
def permStep (s : IdentitiesState) : PermEvent → IdentitiesState
  | PermEvent.accountsChanged accounts =>
      refreshSelectedAddresses { s with internalAccounts := accounts }
  | PermEvent.selectAddresses addresses =>
      refreshSelectedAddresses { s with selectedAddresses := addresses }

/--
A mount followed by a sequence of events.  At mount
`previousIdentitiesListSize` is `undefined`, `selectedAddresses` is `[]`
(the `useState<string[]>([])` initial value) and the effect runs once.
-/
def permRun (initialAccounts : List String) (events : List PermEvent) :
    IdentitiesState :=
  events.foldl permStep
    (refreshSelectedAddresses
      { previousIdentitiesListSize := Option.none,
        selectedAddresses := [],
        internalAccounts := initialAccounts })

/--
An account as produced by the `useAccounts` hook and consumed by this
component; only the `address` field is inspected here (the name is carried
along as opaque payload).
-/
structure Account where
  address : String
  name : String
deriving DecidableEq, Repr

/--
The result record of `accountsFilteredByPermissions` (lines 187-206):
`accountsByPermittedStatus` with its `permitted` and `unpermitted` buckets.
-/
structure AccountsByPermittedStatus where
  permitted : List Account
  unpermitted : List Account
deriving DecidableEq, Repr

/--
The `useMemo` body of `accountsFilteredByPermissions`: a `forEach` over
`accounts` pushing each account into the `permitted` bucket when its
lowercased address occurs in `permittedAccountsByHostname`, and into
`unpermitted` otherwise.  The fold appends to the bucket tails, matching
the push order of the source.
-/
def accountsFilteredByPermissions (accounts : List Account)
    (permittedAccountsByHostname : List String) :
    AccountsByPermittedStatus :=
  accounts.foldl
    (fun acc account =>
      if permittedAccountsByHostname.contains (toLowerCase account.address) then
        { acc with permitted := acc.permitted ++ [account] }
      else
        { acc with unpermitted := acc.unpermitted ++ [account] })
    { permitted := [], unpermitted := [] }

/--
Primitive actions performed by `handleCreateAccount` (lines 208-227) and
`handleConnect` (lines 229-289), in program order: loading-flag writes,
calls into the engine and permission store, analytics, toasts, logging and
sheet dismissal.
-/
inductive Action where
  | setIsLoading (value : Bool)
  | addNewAccountCall
  | addPermittedAccountsCall (hostname : String) (addresses : List String)
  | trackEventAction (event : String)
  | logErrorAction (context : String)
  | showToastAction
  | hideSheetCall
deriving DecidableEq, Repr

/--
Semantics of a `try { body } catch (e) { handler } finally { fin }` block
whose handler and finally blocks are themselves non-throwing straight-line
action sequences (both handlers in this component only call `Logger.error`,
and both finally blocks only call `setIsLoading(false)`).  The body is given
as its performed actions plus its outcome; a thrown error is swallowed by
the handler, so the whole block always completes normally.
-/
def tryCatchFinallyActions (body : List Action × Except String Unit)
    (onCatch : String → List Action) (onFinally : List Action) :
    List Action × Except String Unit :=
  match body with
  | (actions, Except.ok _) => (actions ++ onFinally, Except.ok Unit.unit)
  | (actions, Except.error e) =>
      (actions ++ onCatch e ++ onFinally, Except.ok Unit.unit)

/--
The `try` body of `handleCreateAccount`: set the loading flag, await
`KeyringController.addNewAccount()` (outcome supplied as a parameter), and
on success fire the two analytics events.  A rejection aborts the body
after the awaited call.
-/
def handleCreateAccountBody (outcome : Except String Unit) :
    List Action × Except String Unit :=
  match outcome with
  | Except.ok _ =>
      ([Action.setIsLoading true, Action.addNewAccountCall,
        Action.trackEventAction "ACCOUNTS_ADDED_NEW_ACCOUNT",
        Action.trackEventAction "SWITCHED_ACCOUNT"],
       Except.ok Unit.unit)
  | Except.error e =>
      ([Action.setIsLoading true, Action.addNewAccountCall],
       Except.error e)

/--
`handleCreateAccount`, parameterised by the outcome of the awaited
`addNewAccount` call: the try body under the catch block
(`Logger.error(e, 'Error while trying to add a new account.')`) and the
finally block (`setIsLoading(false)`).
-/
def handleCreateAccount (outcome : Except String Unit) :
    List Action × Except String Unit :=
  tryCatchFinallyActions (handleCreateAccountBody outcome)
    (fun _ => [Action.logErrorAction "Error while trying to add a new account."])
    [Action.setIsLoading false]

/--
The `try` body of `handleConnect`: set the loading flag, call
`addPermittedAccounts(hostname, selectedAddresses)` (outcome supplied as a
parameter; on success it returns the new active address), then show the
account toast and fire the ADD_ACCOUNT_DAPP_PERMISSIONS analytics event.
A throw aborts the body at the permission call.
-/
def handleConnectBody (hostname : String) (selectedAddresses : List String)
    (outcome : Except String String) : List Action × Except String Unit :=
  match outcome with
  | Except.ok _ =>
      ([Action.setIsLoading true,
        Action.addPermittedAccountsCall hostname selectedAddresses,
        Action.showToastAction,
        Action.trackEventAction "ADD_ACCOUNT_DAPP_PERMISSIONS"],
       Except.ok Unit.unit)
  | Except.error e =>
      ([Action.setIsLoading true,
        Action.addPermittedAccountsCall hostname selectedAddresses],
       Except.error e)

/--
`handleConnect`, parameterised by the outcome of `addPermittedAccounts`:
the try body under the catch block
(`Logger.error(e, 'Error while trying to connect to a dApp.')`) and the
finally block (`setIsLoading(false)`).
-/
def handleConnect (hostname : String) (selectedAddresses : List String)
    (outcome : Except String String) : List Action × Except String Unit :=
  tryCatchFinallyActions (handleConnectBody hostname selectedAddresses outcome)
    (fun _ => [Action.logErrorAction "Error while trying to connect to a dApp."])
    [Action.setIsLoading false]

/--
The full action sequence of the `USER_INTENT.Confirm` case of
`handleUserActions` (lines 296-305): `handleConnect()` runs to completion,
then `hideSheet(callback)` is called; the callback fires a SWITCHED_ACCOUNT
track event when the sheet has closed.
-/
def confirmFlowActions (hostname : String) (selectedAddresses : List String)
    (outcome : Except String String) : List Action :=
  (handleConnect hostname selectedAddresses outcome).1 ++
    [Action.hideSheetCall, Action.trackEventAction "SWITCHED_ACCOUNT"]

/-- Effect of one action on the `isLoading` flag. -/
def applyActionToLoading (loading : Bool) : Action → Bool
  | Action.setIsLoading value => value
  | _ => loading

/-- The `isLoading` flag after a sequence of actions. -/
def runLoading (loading : Bool) (actions : List Action) : Bool :=
  actions.foldl applyActionToLoading loading

/--
`const activeAddress: string = permittedAccountsByHostname[0]` (line 115):
JavaScript indexing returns `undefined` on an empty array, modelled as
`Option.none`; no guard is applied in the source.
-/
def activeAddress (permittedAccountsByHostname : List String) :
    Option String :=
  permittedAccountsByHostname.head?

/--
The props of `AccountPermissionsConnected` built by `renderConnectedScreen`
(lines 346-377) that this development reasons about: the permitted bucket
and `selectedAddresses={[activeAddress]}` — a one-element array whose
element may be `undefined`.
-/
structure ConnectedScreenProps where
  accounts : List Account
  selectedAddresses : List (Option String)
  isLoading : Bool
deriving DecidableEq, Repr

/-- `renderConnectedScreen`, projected onto the modelled props. -/
def renderConnectedScreen (permittedAccountsByHostname : List String)
    (accounts : List Account) (isLoading : Bool) : ConnectedScreenProps :=
  { accounts :=
      (accountsFilteredByPermissions accounts permittedAccountsByHostname).permitted,
    selectedAddresses := [activeAddress permittedAccountsByHostname],
    isLoading := isLoading }

/--
The element rendered by each branch of `renderPermissionsScreens`, tagged by
component and carrying the props the claims inspect.  Both the
ConnectMoreAccounts and the EditAccountsPermissions branches render an
`AccountConnectMultiSelector` over the unpermitted bucket; they differ in
their `screenTitle` string (and back target).
-/
inductive RenderedView where
  | accountPermissionsConnected (props : ConnectedScreenProps)
  | accountConnectMultiSelector (accounts : List Account) (screenTitle : String)
  | networkConnectMultiSelector
  | accountPermissionsRevoke (permittedAddresses : List String)
  | permissionsSummary
deriving DecidableEq, Repr

/--
The render-time context `renderPermissionsScreens` closes over: the
permitted list for the hostname, the full account list and the loading
flag.
-/
structure RenderCtx where
  permittedAccountsByHostname : List String
  accounts : List Account
  isLoading : Bool
deriving DecidableEq, Repr

/--
The `switch (permissionsScreen)` of `renderPermissionsScreens`
(lines 509-532), each case delegating to the corresponding render callback.
-/
def renderPermissionsScreens (ctx : RenderCtx) :
    AccountPermissionsScreens → RenderedView
  | AccountPermissionsScreens.Connected =>
      RenderedView.accountPermissionsConnected
        (renderConnectedScreen ctx.permittedAccountsByHostname ctx.accounts
          ctx.isLoading)
  | AccountPermissionsScreens.ConnectMoreAccounts =>
      RenderedView.accountConnectMultiSelector
        (accountsFilteredByPermissions ctx.accounts
          ctx.permittedAccountsByHostname).unpermitted
        "accounts.connect_more_accounts"
  | AccountPermissionsScreens.EditAccountsPermissions =>
      RenderedView.accountConnectMultiSelector
        (accountsFilteredByPermissions ctx.accounts
          ctx.permittedAccountsByHostname).unpermitted
        "accounts.edit_accounts_title"
  | AccountPermissionsScreens.ConnectMoreNetworks =>
      RenderedView.networkConnectMultiSelector
  | AccountPermissionsScreens.Revoke =>
      RenderedView.accountPermissionsRevoke ctx.permittedAccountsByHostname
  | AccountPermissionsScreens.PermissionsSummary =>
      RenderedView.permissionsSummary

end AccountPermissions

/-! ## Theorems -/

namespace InAppBrowserView

theorem browserRun_shouldOpen_aux (events : List BrowserEvent)
    (s : BrowserState) :
    (events.foldl browserStep s).shouldOpenBrowser = true ↔
      s.shouldOpenBrowser = true ∨ BrowserEvent.availableResolved ∈ events := by
  induction events generalizing s with
  | nil => simp [List.foldl]
  | cons e rest ih =>
      cases e with
      | availableResolved =>
          simp [List.foldl, browserStep, ih]
      | availableRejected =>
          simp [List.foldl, browserStep, ih]
      | urlChange u =>
          simp [List.foldl, browserStep, ih]

theorem foldl_placeholder_urlOnly (events : List BrowserEvent)
    (s : BrowserState)
    (h : ∀ x ∈ events, ∃ u, x = BrowserEvent.urlChange u) :
    (events.foldl browserStep s).browserPlaceholderText =
      s.browserPlaceholderText := by
  induction events generalizing s with
  | nil => rfl
  | cons e rest ih =>
      obtain ⟨u, rfl⟩ := h e (List.mem_cons_self _ _)
      simp only [List.foldl]
      rw [ih _ (fun x hx => h x (List.mem_cons_of_mem _ hx))]
      rfl

theorem browserRun_placeholder_aux (events : List BrowserEvent)
    (s : BrowserState)
    (hres : BrowserEvent.availableResolved ∉ events)
    (hrej : BrowserEvent.availableRejected ∈ events) :
    (events.foldl browserStep s).browserPlaceholderText =
      "Browser not Available" := by
  induction events generalizing s with
  | nil => cases hrej
  | cons e rest ih =>
      cases e with
      | availableResolved => exact absurd (List.mem_cons_self _ _) hres
      | availableRejected =>
          by_cases h : BrowserEvent.availableRejected ∈ rest
          · exact ih _ (fun hm => hres (List.mem_cons_of_mem _ hm)) h
          · have hall : ∀ x ∈ rest, ∃ u, x = BrowserEvent.urlChange u := by
              intro x hx
              cases x with
              | availableResolved =>
                  exact absurd (List.mem_cons_of_mem _ hx) hres
              | availableRejected => exact absurd hx h
              | urlChange u => exact ⟨u, rfl⟩
            simp only [List.foldl]
            rw [foldl_placeholder_urlOnly rest _ hall]
            rfl
      | urlChange u =>
          have hrej2 : BrowserEvent.availableRejected ∈ rest := by
            rcases List.mem_cons.mp hrej with h | h
            · cases h
            · exact h
          exact ih _ (fun hm => hres (List.mem_cons_of_mem _ hm)) hrej2

/--
Claim C6: the browser-open action is disabled in the initial state and in
every state reached by a trace with no successful probe resolution; it is
enabled exactly in the states whose trace contains a successful resolution,
so it never becomes enabled through a rejection alone.
-/
theorem openBrowser_disabled_until_probe_success :
    initialBrowserState.shouldOpenBrowser = false ∧
    openBrowserButtonDisabled initialBrowserState = true ∧
    ∀ events : List BrowserEvent,
      ((browserRun events).shouldOpenBrowser = true ↔
        BrowserEvent.availableResolved ∈ events) ∧
      openBrowserButtonDisabled (browserRun events) =
        !(browserRun events).shouldOpenBrowser := by
  refine ⟨rfl, rfl, fun events => ⟨?_, rfl⟩⟩
  have h := browserRun_shouldOpen_aux events initialBrowserState
  simpa [initialBrowserState] using h

/--
Claim C5, counterexample: the claim says a successful probe enables an
action that opens a fixed URL.  In the source the opened URL is the `url`
state, editable through the `TextInput`; after the probe succeeds and the
user edits the field, pressing the enabled action opens the edited URL, not
the initial one.
-/
theorem openBrowser_url_not_fixed :
    (browserRun [BrowserEvent.availableResolved,
      BrowserEvent.urlChange "https://attacker.example/"]).shouldOpenBrowser
      = true ∧
    (handleOpenBrowserButtonPress
      (browserRun [BrowserEvent.availableResolved,
        BrowserEvent.urlChange "https://attacker.example/"])).url =
      "https://attacker.example/" ∧
    (("https://attacker.example/" : String) ==
      "https://home.metamask.io/") = false := by
  refine ⟨rfl, rfl, by decide⟩

/--
Claim C5, amended: the availability probe is started from the component
body (so it may settle at any point, on any render, not only once on
mount); a successful resolution sets the label to Browser available and
enables the single open action; pressing the action opens the current `url`
state (initially the home URL, editable through the text input) with the
fixed options bag `opts`; while no resolution has succeeded the action
stays disabled, and when a probe has rejected (and none succeeded) the
label reads Browser not Available.
-/
theorem openBrowser_gate_spec :
    ∀ events : List BrowserEvent,
      (handleOpenBrowserButtonPress (browserRun events)).options = opts ∧
      (handleOpenBrowserButtonPress (browserRun events)).url =
        (browserRun events).url ∧
      ((browserRun events).shouldOpenBrowser = true ↔
        BrowserEvent.availableResolved ∈ events) ∧
      (BrowserEvent.availableResolved ∉ events →
        openBrowserButtonDisabled (browserRun events) = true ∧
        (BrowserEvent.availableRejected ∈ events →
          (browserRun events).browserPlaceholderText =
            "Browser not Available")) := by
  intro events
  have hiff := browserRun_shouldOpen_aux events initialBrowserState
  refine ⟨rfl, rfl, by simpa [initialBrowserState] using hiff, ?_⟩
  intro hres
  constructor
  · have : ¬ (browserRun events).shouldOpenBrowser = true := by
      rw [browserRun] at *
      rw [hiff]
      simp [initialBrowserState, hres]
    simp [openBrowserButtonDisabled]
    revert this
    cases (browserRun events).shouldOpenBrowser <;> simp
  · intro hrej
    exact browserRun_placeholder_aux events initialBrowserState hres hrej

/--
Witness for `openBrowser_gate_spec` at the one-event rejection trace: the
action is still disabled and the label reports unavailability.
-/
theorem openBrowser_gate_spec_witness :
    openBrowserButtonDisabled
      (browserRun [BrowserEvent.availableRejected]) = true ∧
    (browserRun [BrowserEvent.availableRejected]).browserPlaceholderText =
      "Browser not Available" := by
  have h := (openBrowser_gate_spec [BrowserEvent.availableRejected]).2.2.2
    (by decide)
  exact ⟨h.1, h.2 (by decide)⟩

end InAppBrowserView

namespace AccountPermissions

/--
Claim C1: setting the user intent to any value other than None makes the
effect hook perform exactly the effect list of the corresponding
`handleUserActions` case (Confirm: connect then dismiss; Create and
CreateMultiple: create account; Cancel: dismiss; Import: navigate to
the account-import flow; ConnectHW: navigate to the hardware flow) and
reset the intent
to None within the same run, so that a second run performs nothing; when
the intent is None the hook performs nothing and leaves the state
unchanged.
-/
theorem userIntent_consumed_once :
    userIntentCycle USER_INTENT.None = ([], USER_INTENT.None) ∧
    userIntentCycle USER_INTENT.Confirm =
      ([IntentEffect.connectEffect, IntentEffect.dismissEffect],
        USER_INTENT.None) ∧
    userIntentCycle USER_INTENT.Create =
      ([IntentEffect.createAccountEffect], USER_INTENT.None) ∧
    userIntentCycle USER_INTENT.CreateMultiple =
      ([IntentEffect.createAccountEffect], USER_INTENT.None) ∧
    userIntentCycle USER_INTENT.Cancel =
      ([IntentEffect.dismissEffect], USER_INTENT.None) ∧
    userIntentCycle USER_INTENT.Import =
      ([IntentEffect.navigateEffect "ImportPrivateKeyView",
        IntentEffect.trackEffect "ACCOUNTS_IMPORTED_NEW_ACCOUNT"],
        USER_INTENT.None) ∧
    userIntentCycle USER_INTENT.ConnectHW =
      ([IntentEffect.navigateEffect "ConnectQRHardwareFlow",
        IntentEffect.trackEffect "CONNECT_HARDWARE_WALLET"],
        USER_INTENT.None) ∧
    (∀ i : USER_INTENT, i ≠ USER_INTENT.None →
      (userIntentCycle i).1 = handleUserActions i ∧
      1 ≤ (userIntentCycle i).1.length ∧
      (userIntentCycle i).2 = USER_INTENT.None) ∧
    (∀ i : USER_INTENT, (userIntentCycle (userIntentCycle i).2).1 = []) := by
  refine ⟨rfl, rfl, rfl, rfl, rfl, rfl, rfl, ?_, ?_⟩
  · intro i hi
    cases i
    · exact absurd rfl hi
    all_goals exact ⟨rfl, by decide, rfl⟩
  · intro i
    cases i <;> rfl

/--
Witness for `userIntent_consumed_once` at the Cancel intent: the cycle
performs the Cancel effect list (non-empty) and resets the intent.
-/
theorem userIntent_consumed_once_witness :
    (userIntentCycle USER_INTENT.Cancel).1 =
      handleUserActions USER_INTENT.Cancel ∧
    1 ≤ (userIntentCycle USER_INTENT.Cancel).1.length ∧
    (userIntentCycle USER_INTENT.Cancel).2 = USER_INTENT.None :=
  userIntent_consumed_once.2.2.2.2.2.2.2.1 USER_INTENT.Cancel (by decide)

theorem autoDismiss_foldl_stable (isRenderedAsBottomSheet : Bool)
    (observations : List (List String)) (s : AutoDismissState)
    (h : s.previousPermittedAccounts ≠ Option.none) :
    observations.foldl (autoDismissStep isRenderedAsBottomSheet) s = s := by
  induction observations with
  | nil => rfl
  | cons l rest ih =>
      have hstep : autoDismissStep isRenderedAsBottomSheet s l = s := by
        unfold autoDismissStep
        rw [if_neg]
        intro hc
        exact h hc.1
      rw [List.foldl, hstep]
      exact ih

/--
Claim C2, counterexample: the claim says the auto-dismiss effect does not
fire when the permitted-account list is already empty at mount.  In the
source the guard is only `previousPermittedAccounts.current === undefined`,
which holds on the very first render, so a mount whose first observed
permitted list is empty (while rendered as a bottom sheet) fires the effect
immediately.
-/
theorem autoDismiss_fires_when_empty_at_mount :
    (autoDismissRun true [[]]).dismissToastFires = 1 ∧
    (autoDismissRun true [[]]).previousPermittedAccounts = Option.some 0 := by
  constructor <;> rfl

/--
Claim C2, amended: across the renders of one mount, the auto-dismiss side
effect (hide sheet and show disconnect notification) fires at most once,
and it fires exactly when the component is rendered as a bottom sheet and
some observed permitted-account list is empty — the first such observation,
including the case in which the list is already empty at mount.
-/
theorem autoDismiss_at_most_once :
    ∀ (isRenderedAsBottomSheet : Bool) (observations : List (List String)),
      (autoDismissRun isRenderedAsBottomSheet observations).dismissToastFires
        ≤ 1 ∧
      ((autoDismissRun isRenderedAsBottomSheet observations).dismissToastFires
          = 1 ↔
        isRenderedAsBottomSheet = true ∧
          ∃ l ∈ observations, l = ([] : List String)) := by
  intro bs obs
  induction obs with
  | nil =>
      refine ⟨Nat.zero_le 1, ?_⟩
      simp [autoDismissRun, initialAutoDismissState]
  | cons l rest ih =>
      by_cases hc : l = [] ∧ bs = true
      · obtain ⟨rfl, rfl⟩ := hc
        have hstep : autoDismissStep true initialAutoDismissState
            ([] : List String) =
            { previousPermittedAccounts := Option.some 0,
              dismissToastFires := 1 } := rfl
        have hrun : autoDismissRun true (([] : List String) :: rest) =
            { previousPermittedAccounts := Option.some 0,
              dismissToastFires := 1 } := by
          rw [autoDismissRun, List.foldl, hstep]
          exact autoDismiss_foldl_stable true rest _ (by decide)
        rw [hrun]
        refine ⟨le_refl 1, ?_⟩
        constructor
        · intro _
          exact ⟨rfl, ⟨[], List.mem_cons_self _ _, rfl⟩⟩
        · intro _
          rfl
      · have hstep : autoDismissStep bs initialAutoDismissState l =
            initialAutoDismissState := by
          unfold autoDismissStep
          rw [if_neg]
          rintro ⟨-, hlen, hbs⟩
          exact hc ⟨List.length_eq_zero.mp hlen, hbs⟩
        have hrun : autoDismissRun bs (l :: rest) = autoDismissRun bs rest := by
          rw [autoDismissRun, List.foldl, hstep]
          rfl
        rw [hrun]
        refine ⟨ih.1, ?_⟩
        rw [ih.2]
        constructor
        · rintro ⟨hb, x, hx, hxe⟩
          exact ⟨hb, x, List.mem_cons_of_mem _ hx, hxe⟩
        · rintro ⟨hb, x, hx, rfl⟩
          rcases List.mem_cons.mp hx with h | h
          · exact absurd ⟨h.symm, hb⟩ hc
          · exact ⟨hb, [], h, rfl⟩

end AccountPermissions

namespace AccountPermissions

/--
Claim C3, counterexample: the claim says every account-list update leaves
the selected-address set a subset of the updated list.  The refresh effect
only filters when the number of accounts changes
(`previousIdentitiesListSize.current !== accountsAddressList.length`), so a
size-preserving replacement — here one account swapped for another — leaves
a selected address that no longer exists in the account list.
-/
theorem selectedAddresses_stale_after_same_size_update :
    (permRun ["0xA"] [PermEvent.selectAddresses ["0xA"],
        PermEvent.accountsChanged ["0xB"]]).selectedAddresses = ["0xA"] ∧
    (permRun ["0xA"] [PermEvent.selectAddresses ["0xA"],
        PermEvent.accountsChanged ["0xB"]]).internalAccounts = ["0xB"] ∧
    ((["0xB"].map toLowerCase).contains (toLowerCase "0xA")) = false := by
  refine ⟨by decide, by decide, by decide⟩

/--
Claim C3, amended: the refresh effect filters the selected-address set down
to a case-insensitive subset of the internal account list exactly when the
recorded list size differs from the current one (which includes the first
run after mount, where the ref is still undefined); when the sizes agree —
even if the list contents changed — the state is left untouched, so stale
addresses can survive a size-preserving update.
-/
theorem refreshSelectedAddresses_spec :
    ∀ (prev : Option Nat) (sel accs : List String),
      (prev ≠ Option.some accs.length →
        ∀ a ∈ (refreshSelectedAddresses
            { previousIdentitiesListSize := prev,
              selectedAddresses := sel,
              internalAccounts := accs }).selectedAddresses,
          (accs.map toLowerCase).contains (toLowerCase a) = true) ∧
      (prev = Option.some accs.length →
        refreshSelectedAddresses
            { previousIdentitiesListSize := prev,
              selectedAddresses := sel,
              internalAccounts := accs } =
          { previousIdentitiesListSize := prev,
            selectedAddresses := sel,
            internalAccounts := accs }) := by
  intro prev sel accs
  constructor
  · intro h a ha
    have hcond : prev ≠ Option.some ((accs.map toLowerCase).length) := by
      simpa [List.length_map] using h
    unfold refreshSelectedAddresses at ha
    simp only at ha
    rw [if_pos hcond] at ha
    simp only at ha
    exact (List.mem_filter.mp ha).2
  · intro h
    unfold refreshSelectedAddresses
    simp only
    rw [if_neg]
    simp [List.length_map, h]

/--
Witness for `refreshSelectedAddresses_spec`: at mount (ref undefined) with
one selected address that still exists, the refresh keeps it and it is a
member of the lowercased account list.
-/
theorem refreshSelectedAddresses_spec_witness :
    ((["0xB"].map toLowerCase).contains (toLowerCase "0xB")) = true :=
  ((refreshSelectedAddresses_spec Option.none ["0xB"] ["0xB"]).1 (by decide))
    "0xB" (by decide)

theorem length_filter_bool_partition {α : Type} (p : α → Bool) (l : List α) :
    (l.filter p).length + (l.filter (fun a => !(p a))).length = l.length := by
  induction l with
  | nil => rfl
  | cons a rest ih =>
      cases h : p a with
      | true => simp [List.filter_cons, h]; omega
      | false => simp [List.filter_cons, h]; omega

theorem accountsFiltered_foldl_aux (accounts : List Account)
    (perms : List String) (init : AccountsByPermittedStatus) :
    accounts.foldl
      (fun acc account =>
        if perms.contains (toLowerCase account.address) then
          { acc with permitted := acc.permitted ++ [account] }
        else
          { acc with unpermitted := acc.unpermitted ++ [account] }) init =
      { permitted := init.permitted ++
          accounts.filter (fun a => perms.contains (toLowerCase a.address)),
        unpermitted := init.unpermitted ++
          accounts.filter
            (fun a => !(perms.contains (toLowerCase a.address))) } := by
  induction accounts generalizing init with
  | nil => simp
  | cons a rest ih =>
      cases hp : perms.contains (toLowerCase a.address) with
      | true =>
          simp only [List.foldl, hp, if_true, List.filter_cons, Bool.not_true]
          rw [ih]
          simp
      | false =>
          simp only [List.foldl, hp, if_false, List.filter_cons,
            Bool.not_false]
          rw [ih]
          simp

end AccountPermissions

namespace AccountPermissions

/--
Claim C4: for every account list and permitted-accounts list, the computed
permitted/unpermitted record is a full disjoint cover of the account list:
the permitted bucket is exactly the accounts whose lowercased address
occurs in the permitted list, the unpermitted bucket exactly the others,
the bucket sizes add up to the account-list size, every listed account is a
member of exactly the bucket its membership test selects, and no account is
a member of both buckets.
-/
theorem accountsFilteredByPermissions_partition :
    ∀ (accounts : List Account) (permittedAccountsByHostname : List String),
      (accountsFilteredByPermissions accounts
          permittedAccountsByHostname).permitted =
        accounts.filter
          (fun a => permittedAccountsByHostname.contains
            (toLowerCase a.address)) ∧
      (accountsFilteredByPermissions accounts
          permittedAccountsByHostname).unpermitted =
        accounts.filter
          (fun a => !(permittedAccountsByHostname.contains
            (toLowerCase a.address))) ∧
      (accountsFilteredByPermissions accounts
          permittedAccountsByHostname).permitted.length +
        (accountsFilteredByPermissions accounts
          permittedAccountsByHostname).unpermitted.length =
        accounts.length ∧
      (∀ a ∈ accounts,
        (a ∈ (accountsFilteredByPermissions accounts
            permittedAccountsByHostname).permitted ↔
          permittedAccountsByHostname.contains (toLowerCase a.address) =
            true) ∧
        (a ∈ (accountsFilteredByPermissions accounts
            permittedAccountsByHostname).unpermitted ↔
          permittedAccountsByHostname.contains (toLowerCase a.address) =
            false)) ∧
      (∀ a : Account,
        a ∈ (accountsFilteredByPermissions accounts
          permittedAccountsByHostname).permitted →
        a ∈ (accountsFilteredByPermissions accounts
          permittedAccountsByHostname).unpermitted → False) := by
  intro accounts perms
  have hperm : (accountsFilteredByPermissions accounts perms).permitted =
      accounts.filter (fun a => perms.contains (toLowerCase a.address)) := by
    unfold accountsFilteredByPermissions
    rw [accountsFiltered_foldl_aux]
    simp
  have hunperm : (accountsFilteredByPermissions accounts perms).unpermitted =
      accounts.filter
        (fun a => !(perms.contains (toLowerCase a.address))) := by
    unfold accountsFilteredByPermissions
    rw [accountsFiltered_foldl_aux]
    simp
  refine ⟨hperm, hunperm, ?_, ?_, ?_⟩
  · rw [hperm, hunperm]
    exact length_filter_bool_partition _ accounts
  · intro a ha
    constructor
    · rw [hperm]
      constructor
      · intro hmem
        exact (List.mem_filter.mp hmem).2
      · intro htest
        exact List.mem_filter.mpr ⟨ha, htest⟩
    · rw [hunperm]
      constructor
      · intro hmem
        have := (List.mem_filter.mp hmem).2
        revert this
        cases perms.contains (toLowerCase a.address) <;> simp
      · intro htest
        refine List.mem_filter.mpr ⟨ha, ?_⟩
        rw [htest]
        rfl
  · intro a hp hu
    rw [hperm] at hp
    rw [hunperm] at hu
    have h1 := (List.mem_filter.mp hp).2
    have h2 := (List.mem_filter.mp hu).2
    rw [h1] at h2
    simp at h2

/--
Witness for `accountsFilteredByPermissions_partition`: with one permitted
and one unpermitted account, the permitted account is a member of the
permitted bucket and not of the unpermitted one.
-/
theorem accountsFilteredByPermissions_partition_witness :
    (Account.mk "0xA" "Account 1") ∈
      (accountsFilteredByPermissions
        [Account.mk "0xA" "Account 1", Account.mk "0xB" "Account 2"]
        ["0xa"]).permitted ∧
    ((Account.mk "0xA" "Account 1") ∈
      (accountsFilteredByPermissions
        [Account.mk "0xA" "Account 1", Account.mk "0xB" "Account 2"]
        ["0xa"]).unpermitted ↔ False) := by
  have h := (accountsFilteredByPermissions_partition
    [Account.mk "0xA" "Account 1", Account.mk "0xB" "Account 2"]
    ["0xa"]).2.2.2.1 (Account.mk "0xA" "Account 1") (by decide)
  refine ⟨h.1.mpr (by decide), ?_⟩
  constructor
  · intro hmem
    have := h.2.mp hmem
    exact Bool.noConfusion ((by decide : (["0xa"].contains
      (toLowerCase "0xA")) = true).symm.trans this)
  · intro hfalse
    exact absurd hfalse (fun h => h)

/--
Claim C7: for every outcome of the awaited account-creation call,
`handleCreateAccount` completes without propagating an exception; after its
actions the loading flag is false from any starting value; and on a failure
outcome the error is logged with the context string from the source while
no toast (the only explicit UI surface these handlers use) is shown.
-/
theorem handleCreateAccount_never_throws :
    ∀ (outcome : Except String Unit) (loading : Bool),
      (handleCreateAccount outcome).2 = Except.ok Unit.unit ∧
      runLoading loading (handleCreateAccount outcome).1 = false ∧
      (∀ e, outcome = Except.error e →
        Action.logErrorAction "Error while trying to add a new account." ∈
          (handleCreateAccount outcome).1 ∧
        Action.showToastAction ∉ (handleCreateAccount outcome).1) := by
  intro outcome loading
  cases outcome with
  | ok u =>
      refine ⟨rfl, rfl, ?_⟩
      intro e he
      exact Except.noConfusion he
  | error e0 =>
      refine ⟨rfl, rfl, ?_⟩
      intro e he
      constructor
      · simp [handleCreateAccount, handleCreateAccountBody,
          tryCatchFinallyActions]
      · intro hmem
        simp [handleCreateAccount, handleCreateAccountBody,
          tryCatchFinallyActions] at hmem

/--
Witness for `handleCreateAccount_never_throws` at a concrete failing
outcome: the failure is logged and no toast action is emitted.
-/
theorem handleCreateAccount_never_throws_witness :
    Action.logErrorAction "Error while trying to add a new account." ∈
      (handleCreateAccount (Except.error "boom")).1 ∧
    Action.showToastAction ∉ (handleCreateAccount (Except.error "boom")).1 :=
  (handleCreateAccount_never_throws (Except.error "boom") true).2.2 "boom" rfl

/--
Claim C10: the Confirm intent flow always dismisses the sheet: the
`hideSheetCall` action occurs in the Confirm action sequence for every
outcome of `addPermittedAccounts`; `handleConnect` completes without
propagating an exception; the loading flag is false after it from any
starting value; and a failure is logged with the context string from the
source.
-/
theorem confirmIntent_always_dismisses :
    ∀ (hostname : String) (selectedAddresses : List String)
      (outcome : Except String String) (loading : Bool),
      Action.hideSheetCall ∈
        confirmFlowActions hostname selectedAddresses outcome ∧
      (handleConnect hostname selectedAddresses outcome).2 =
        Except.ok Unit.unit ∧
      runLoading loading
        (handleConnect hostname selectedAddresses outcome).1 = false ∧
      (∀ e, outcome = Except.error e →
        Action.logErrorAction "Error while trying to connect to a dApp." ∈
          (handleConnect hostname selectedAddresses outcome).1) := by
  intro hostname selectedAddresses outcome loading
  cases outcome with
  | ok newActiveAddress =>
      refine ⟨?_, rfl, rfl, ?_⟩
      · simp [confirmFlowActions]
      · intro e he
        exact Except.noConfusion he
  | error e0 =>
      refine ⟨?_, rfl, rfl, ?_⟩
      · simp [confirmFlowActions]
      · intro e he
        simp [handleConnect, handleConnectBody, tryCatchFinallyActions]

/--
Witness for `confirmIntent_always_dismisses` at a concrete failing
permission call: the sheet is still dismissed and the error is logged.
-/
theorem confirmIntent_always_dismisses_witness :
    Action.hideSheetCall ∈
      confirmFlowActions "app.uniswap.org" ["0xa"] (Except.error "boom") ∧
    Action.logErrorAction "Error while trying to connect to a dApp." ∈
      (handleConnect "app.uniswap.org" ["0xa"] (Except.error "boom")).1 :=
  ⟨(confirmIntent_always_dismisses "app.uniswap.org" ["0xa"]
      (Except.error "boom") true).1,
    (confirmIntent_always_dismisses "app.uniswap.org" ["0xa"]
      (Except.error "boom") true).2.2.2 "boom" rfl⟩

/--
Claim C8: the permission screen router is a total function of the screen
enum — in Lean totality is by construction, and each of the six values
renders exactly its sub-view (Connected renders the connected screen over
the permitted bucket; ConnectMoreAccounts and EditAccountsPermissions each
render the multi-selector over the unpermitted bucket, with their own
titles; ConnectMoreNetworks the network selector; Revoke the revoke screen
over the permitted addresses; PermissionsSummary the summary).  Distinct
screens render distinct views, and the initial screen state equals the
caller-supplied initial screen, defaulting to Connected when absent.
-/
theorem renderPermissionsScreens_spec :
    ∀ ctx : RenderCtx,
      renderPermissionsScreens ctx AccountPermissionsScreens.Connected =
        RenderedView.accountPermissionsConnected
          (renderConnectedScreen ctx.permittedAccountsByHostname ctx.accounts
            ctx.isLoading) ∧
      renderPermissionsScreens ctx
          AccountPermissionsScreens.ConnectMoreAccounts =
        RenderedView.accountConnectMultiSelector
          (accountsFilteredByPermissions ctx.accounts
            ctx.permittedAccountsByHostname).unpermitted
          "accounts.connect_more_accounts" ∧
      renderPermissionsScreens ctx
          AccountPermissionsScreens.EditAccountsPermissions =
        RenderedView.accountConnectMultiSelector
          (accountsFilteredByPermissions ctx.accounts
            ctx.permittedAccountsByHostname).unpermitted
          "accounts.edit_accounts_title" ∧
      renderPermissionsScreens ctx
          AccountPermissionsScreens.ConnectMoreNetworks =
        RenderedView.networkConnectMultiSelector ∧
      renderPermissionsScreens ctx AccountPermissionsScreens.Revoke =
        RenderedView.accountPermissionsRevoke
          ctx.permittedAccountsByHostname ∧
      renderPermissionsScreens ctx
          AccountPermissionsScreens.PermissionsSummary =
        RenderedView.permissionsSummary ∧
      initialScreen Option.none = AccountPermissionsScreens.Connected ∧
      (∀ s, initialScreen (Option.some s) = s) ∧
      (∀ s1 s2 : AccountPermissionsScreens, s1 ≠ s2 →
        renderPermissionsScreens ctx s1 ≠ renderPermissionsScreens ctx s2) := by
  intro ctx
  refine ⟨rfl, rfl, rfl, rfl, rfl, rfl, rfl, fun s => rfl, ?_⟩
  intro s1 s2 hne heq
  apply hne
  cases s1 <;> cases s2 <;> simp_all [renderPermissionsScreens]

/--
Witness for `renderPermissionsScreens_spec`: the two multi-selector screens
render distinct views at a concrete context.
-/
theorem renderPermissionsScreens_spec_witness :
    renderPermissionsScreens (RenderCtx.mk [] [] false)
        AccountPermissionsScreens.ConnectMoreAccounts ≠
      renderPermissionsScreens (RenderCtx.mk [] [] false)
        AccountPermissionsScreens.EditAccountsPermissions :=
  (renderPermissionsScreens_spec (RenderCtx.mk [] [] false)).2.2.2.2.2.2.2.2
    AccountPermissionsScreens.ConnectMoreAccounts
    AccountPermissionsScreens.EditAccountsPermissions (by decide)

/--
Claim C9: `activeAddress` indexes the permitted list with no guard: it is
`undefined` (`Option.none`) exactly when the permitted list for the
hostname is empty, in which case the Connected screen receives
`selectedAddresses = [undefined]`; only on a non-empty list does it equal
the first permitted address.
-/
theorem activeAddress_unguarded_head :
    ∀ (permittedAccountsByHostname : List String)
      (accounts : List Account) (isLoading : Bool),
      (activeAddress permittedAccountsByHostname = Option.none ↔
        permittedAccountsByHostname = []) ∧
      (permittedAccountsByHostname = [] →
        (renderConnectedScreen permittedAccountsByHostname accounts
          isLoading).selectedAddresses = [Option.none]) ∧
      (∀ a t, permittedAccountsByHostname = a :: t →
        activeAddress permittedAccountsByHostname = Option.some a) := by
  intro perms accounts isLoading
  cases perms with
  | nil =>
      refine ⟨by simp [activeAddress], fun _ => rfl, ?_⟩
      intro a t h
      exact List.noConfusion h
  | cons x xs =>
      refine ⟨by simp [activeAddress], fun h => List.noConfusion h, ?_⟩
      intro a t h
      injection h with h1 h2
      rw [activeAddress, h1]
      rfl

/--
Witness for `activeAddress_unguarded_head` at the empty permitted list: the
Connected screen receives a selected-address list holding `undefined`.
-/
theorem activeAddress_unguarded_head_witness :
    (renderConnectedScreen [] [] false).selectedAddresses = [Option.none] :=
  (activeAddress_unguarded_head [] [] false).2.1 rfl

end AccountPermissions
